import Mathlib

/-!
Verification of the device-authorization login flow of the CLI
(file src/auth/authenticator.go) against its specification.

The Go code is shallowly embedded:

* time.Time and time.Duration are Int (nanoseconds); Duration arithmetic
  that the Go runtime performs on int64 is wrapped explicitly.
* The HTTP layer is abstracted at the client.Do boundary: a response is a
  status code together with the outcomes of decoding its body as each of
  the three JSON shapes the code uses (none models a json.Decode failure).
* Go (value, error) returns become pairs with Option, and fallible calls
  become Except.
-/

namespace PscaleAuth

/-- Two-complement wrap of an integer into the signed 64-bit range,
modelling Go int64 overflow. -/
def wrap64 (x : Int) : Int := (x + 2 ^ 63) % 2 ^ 64 - 2 ^ 63

/-- time.Second in nanoseconds. -/
def second : Int := 1000000000

/-- ErrorResponse is an error response from the API
(fields error and error_description of the JSON body). -/
structure ErrorResponse where
  errorCode : String
  description : String
deriving DecidableEq, Repr

/-- The Go error values that arise in the authenticator. wrap models
errors.Wrap, simple models errors.New, jsonDecode models a failure of
json.Decoder.Decode, ctxCanceled the error the HTTP client returns when
the request context is cancelled, transport any other client.Do failure. -/
inductive GoError where
  | auth (e : ErrorResponse)
  | jsonDecode
  | wrap (msg : String) (inner : GoError)
  | simple (msg : String)
  | ctxCanceled
  | transport (msg : String)
deriving DecidableEq, Repr

/-- The Error() string of a Go error value; for ErrorResponse the source
returns e.Description, and errors.Wrap prefixes the message. -/
def GoError.message : GoError → String
  | .auth e => e.description
  | .jsonDecode => "json decode error"
  | .wrap msg inner => msg ++ ": " ++ inner.message
  | .simple msg => msg
  | .ctxCanceled => "context canceled"
  | .transport msg => msg

/-- OAuthTokenResponse contains the information returned after fetching an
access token for a device. -/
structure OAuthTokenResponse where
  accessToken : String
  refreshToken : String
  idToken : String
  expiresIn : Int
deriving DecidableEq, Repr

/-- DeviceCodeResponse encapsulates the response for obtaining a device
code. -/
structure DeviceCodeResponse where
  deviceCode : String
  userCode : String
  verificationURI : String
  verificationCompleteURI : String
  expiresIn : Int
  pollingInterval : Int
deriving DecidableEq, Repr

/-- An HTTP response as the authenticator observes it: the status code and
the outcome of decoding the body as each JSON shape the code ever decodes
it into (none models a json.Decoder.Decode failure on that shape). -/
structure HttpResponse where
  statusCode : Nat
  errorBody : Option ErrorResponse
  tokenBody : Option OAuthTokenResponse
  deviceBody : Option DeviceCodeResponse
deriving DecidableEq, Repr

/-- DeviceVerification represents the response from verifying a device.
CheckInterval is a time.Duration and ExpiresAt a time.Time, both in
nanoseconds. -/
structure DeviceVerification where
  deviceCode : String
  userCode : String
  verificationURL : String
  verificationCompleteURL : String
  checkInterval : Int
  expiresAt : Int
deriving DecidableEq, Repr

/-- checkErrorResponse from the source: on status at least 400 decode the
body as an ErrorResponse; a decode failure is wrapped with the message
from the source; the codes authorization_pending and slow_down yield no
error; any other decoded ErrorResponse is returned as the error. -/
def checkErrorResponse (res : HttpResponse) : Option GoError :=
  if res.statusCode ≥ 400 then
    match res.errorBody with
    | none => some (.wrap "error decoding token response" .jsonDecode)
    | some errorRes =>
      if errorRes.errorCode = "authorization_pending" ∨ errorRes.errorCode = "slow_down" then
        none
      else
        some (.auth errorRes)
  else
    none

/-- The tail of VerifyDevice after checkErrorResponse reported no error:
decode the body as a DeviceCodeResponse and build the DeviceVerification,
converting the polling interval and expiry from seconds with Go int64
duration arithmetic. now is the value time.Now() yields at this call. -/
def verifyDecode (now : Int) (res : HttpResponse) : Except GoError DeviceVerification :=
  match res.deviceBody with
  | none => .error (.wrap "error decoding device code response" .jsonDecode)
  | some deviceCodeRes =>
    .ok { deviceCode := deviceCodeRes.deviceCode
          userCode := deviceCodeRes.userCode
          verificationURL := deviceCodeRes.verificationURI
          verificationCompleteURL := deviceCodeRes.verificationCompleteURI
          checkInterval := wrap64 (deviceCodeRes.pollingInterval * second)
          expiresAt := now + wrap64 (deviceCodeRes.expiresIn * second) }

/-- VerifyDevice from the client.Do boundary on: doResult is the outcome of
the POST to the device-code endpoint (an error when the request failed).
The request-building path of NewFormRequest cannot fail for the fixed
base URL and is outside the model. -/
def VerifyDevice (now : Int) (doResult : Except GoError HttpResponse) :
    Except GoError DeviceVerification :=
  match doResult with
  | .error e => .error e
  | .ok res =>
    match checkErrorResponse res with
    | some e => .error e
    | none => verifyDecode now res

/-- requestToken from the client.Do boundary on: doResult is the outcome of
the POST to the token endpoint. Mirrors the Go (string, error) return. -/
def requestToken (doResult : Except GoError HttpResponse) : String × Option GoError :=
  match doResult with
  | .error e => ("", some (.wrap "error performing http request" e))
  | .ok res =>
    match checkErrorResponse res with
    | some e => ("", some e)
    | none =>
      match res.tokenBody with
      | none => ("", some (.wrap "error decoding token response" .jsonDecode))
      | some tokenRes => (tokenRes.accessToken, none)

instance {ε α : Type} [DecidableEq ε] [DecidableEq α] : DecidableEq (Except ε α) := fun a b =>
  match a, b with
  | .error e, .error f =>
    if h : e = f then .isTrue (by rw [h]) else .isFalse (by simp [h])
  | .error _, .ok _ => .isFalse (by simp)
  | .ok _, .error _ => .isFalse (by simp)
  | .ok x, .ok y =>
    if h : x = y then .isTrue (by rw [h]) else .isFalse (by simp [h])

/-- One iteration of the polling loop of GetAccessTokenForDevice feeds on
the outcome of the network call of that attempt and the value time.Now()
yields at the expiry check of that attempt. -/
structure PollStep where
  net : Except GoError HttpResponse
  now : Int
deriving DecidableEq, Repr

/-- The local state of GetAccessTokenForDevice: the verification value the
caller passed and the two loop variables accessToken and err. -/
structure LoopState where
  v : DeviceVerification
  accessToken : String
  err : Option GoError
deriving DecidableEq, Repr

/-- The timeout error errors.New synthesizes when expiry passes. -/
def timeoutError : GoError := .simple "authentication timed out"

/-- The body of the for loop of GetAccessTokenForDevice: perform the token
request, and if it yielded no token and no error, either synthesize the
timeout error (when time.Now().After(v.ExpiresAt)) or continue. The Bool
is true exactly when the loop continues to the next iteration. -/
def loopIter (s : LoopState) (st : PollStep) : LoopState × Bool :=
  let r := requestToken st.net
  let s1 : LoopState := { s with accessToken := r.1, err := r.2 }
  if r.1 = "" ∧ r.2 = none then
    if s.v.expiresAt < st.now then
      ({ s1 with err := some timeoutError }, false)
    else
      (s1, true)
  else
    (s1, false)

/-- Run the polling loop on a finite schedule of attempts. Returns the
final state and the number of token requests issued, or none when the
schedule is exhausted with the loop still running (the Go loop itself has
no bound of its own). -/
def runLoop (s : LoopState) : List PollStep → Option (LoopState × Nat)
  | [] => none
  | st :: rest =>
    match loopIter s st with
    | (s1, false) => some (s1, 1)
    | (s1, true) => Option.map (fun p => (p.1, p.2 + 1)) (runLoop s1 rest)

/-- GetAccessTokenForDevice on a schedule of attempts: returns the
(accessToken, err) pair the Go function returns, with the number of token
requests issued, or none when the schedule did not decide the loop. -/
def GetAccessTokenForDevice (v : DeviceVerification) (steps : List PollStep) :
    Option ((String × Option GoError) × Nat) :=
  match runLoop { v := v, accessToken := "", err := none } steps with
  | none => none
  | some (f, n) => some ((f.accessToken, f.err), n)

/-- The observable suspension and request events of the polling loop. -/
inductive PollEvent where
  | sleep (d : Int)
  | request
deriving DecidableEq, Repr

/-- The event trace of GetAccessTokenForDevice: each iteration first
sleeps for v.CheckInterval, then issues one token request; the loop
continues exactly under the condition of loopIter. -/
def pollEvents (v : DeviceVerification) : List PollStep → List PollEvent
  | [] => []
  | st :: rest =>
    let r := requestToken st.net
    PollEvent.sleep v.checkInterval :: PollEvent.request ::
      (if r.1 = "" ∧ r.2 = none ∧ ¬ v.expiresAt < st.now then pollEvents v rest else [])

/-- time.Sleep as the source calls it: the sleep takes no cancellation
signal, so it always ends a full duration after it starts. -/
def goSleep (start d : Int) : Int := start + d

/-- client.Do of a request carrying the caller context: when the context
is cancelled before the call would complete, the call aborts promptly
(at the cancellation instant, or at once if already cancelled) with the
context error; otherwise it completes after its network duration. -/
def doWithCtx (cancelAt : Option Int) (start netDur : Int)
    (out : Except GoError HttpResponse) : Int × Except GoError HttpResponse :=
  match cancelAt with
  | none => (start + netDur, out)
  | some c =>
    if c < start + netDur then (max start c, .error .ctxCanceled)
    else (start + netDur, out)

/-- One attempt of the timed loop: how long the network call would take
uncancelled and what it would return. -/
structure TimedStep where
  netDur : Int
  net : Except GoError HttpResponse

/-- GetAccessTokenForDevice with wall-clock time threaded through: each
iteration sleeps the full check interval (goSleep, not cancellable), then
performs the network call under the context (doWithCtx, cancellable),
then runs the same decision as loopIter. Returns the instant the loop
ends and the (accessToken, err) pair. -/
def timedLoop (v : DeviceVerification) (cancelAt : Option Int) :
    Int → List TimedStep → Option (Int × (String × Option GoError))
  | _, [] => none
  | t, st :: rest =>
    let t1 := goSleep t v.checkInterval
    let d := doWithCtx cancelAt t1 st.netDur st.net
    let r := requestToken d.2
    if r.1 = "" ∧ r.2 = none then
      if v.expiresAt < d.1 then some (d.1, ("", some timeoutError))
      else timedLoop v cancelAt d.1 rest
    else some (d.1, r)

lemma loopIter_continue {s : LoopState} {st : PollStep}
    (hp : requestToken st.net = ("", none)) (hle : st.now ≤ s.v.expiresAt) :
    loopIter s st = (⟨s.v, "", none⟩, true) := by
  simp [loopIter, hp, not_lt.mpr hle]

lemma loopIter_timeout {s : LoopState} {st : PollStep}
    (hp : requestToken st.net = ("", none)) (hgt : s.v.expiresAt < st.now) :
    loopIter s st = (⟨s.v, "", some timeoutError⟩, false) := by
  simp [loopIter, hp, hgt]

lemma loopIter_stop {s : LoopState} {st : PollStep} {tok : String} {e : Option GoError}
    (hp : requestToken st.net = (tok, e)) (h : ¬ (tok = "" ∧ e = none)) :
    loopIter s st = (⟨s.v, tok, e⟩, false) := by
  simp only [loopIter, hp]
  rw [if_neg h]

lemma runLoop_cons_stop {s s1 : LoopState} {st : PollStep} {rest : List PollStep}
    (h : loopIter s st = (s1, false)) :
    runLoop s (st :: rest) = some (s1, 1) := by
  simp [runLoop, h]

lemma runLoop_cons_continue {s s1 : LoopState} {st : PollStep} {rest : List PollStep}
    (h : loopIter s st = (s1, true)) :
    runLoop s (st :: rest) = Option.map (fun p => (p.1, p.2 + 1)) (runLoop s1 rest) := by
  simp [runLoop, h]

/-- Running the loop across a prefix of inconclusive, unexpired attempts
just shifts the attempt count: the state ⟨v, empty, none⟩ reproduces
itself. -/
lemma runLoop_skip_pending (v : DeviceVerification) (pre rest : List PollStep)
    (hpre : ∀ st ∈ pre, requestToken st.net = ("", none) ∧ st.now ≤ v.expiresAt) :
    runLoop ⟨v, "", none⟩ (pre ++ rest) =
      Option.map (fun p => (p.1, p.2 + pre.length)) (runLoop ⟨v, "", none⟩ rest) := by
  induction pre with
  | nil => simp
  | cons st pre ih =>
    have hst := hpre st (List.mem_cons_self st pre)
    have hrec := ih (fun s hs => hpre s (List.mem_cons_of_mem st hs))
    have hit : loopIter ⟨v, "", none⟩ st = (⟨v, "", none⟩, true) :=
      loopIter_continue hst.1 hst.2
    rw [List.cons_append, runLoop_cons_continue hit, hrec]
    cases runLoop (⟨v, "", none⟩ : LoopState) rest with
    | none => rfl
    | some p =>
      simp [List.length_cons]
      omega

/-- The decode outcomes a real execution can deliver for one response: on
a status at least 400 the classifier has already consumed res.Body with
its own json.Decoder, so the token and device-code decodes that
requestToken and VerifyDevice attempt afterwards read an exhausted
stream and cannot succeed. -/
def bodyConsumed (res : HttpResponse) : Prop :=
  400 ≤ res.statusCode → res.tokenBody = none ∧ res.deviceBody = none

/-- Claim C1 fails on the code: checkErrorResponse decodes the error body
of every status at least 400 response, consuming res.Body, so on a poll
response classified as authorization_pending the token decode that
requestToken runs next reads an exhausted stream and fails. The loop
therefore breaks on the very first pending-classified attempt with the
wrapped decode error — here at clock 10, far before expires_at = 100,
with a further pending attempt still scheduled — and never reaches the
timeout. The response below is the faithful encoding of such a reply
(bodyConsumed holds: the token body cannot be decoded after the
classifier ran). -/
theorem C1_pending_decode_breaks_polling :
    bodyConsumed ⟨400, some ⟨"authorization_pending", "pending"⟩, none, none⟩ ∧
    checkErrorResponse ⟨400, some ⟨"authorization_pending", "pending"⟩, none, none⟩ = none ∧
    requestToken (Except.ok ⟨400, some ⟨"authorization_pending", "pending"⟩, none, none⟩) =
      ("", some (GoError.wrap "error decoding token response" GoError.jsonDecode)) ∧
    GetAccessTokenForDevice ⟨"D", "U", "u", "uc", 5 * second, 100⟩
        [⟨Except.ok ⟨400, some ⟨"authorization_pending", "pending"⟩, none, none⟩, 10⟩,
         ⟨Except.ok ⟨400, some ⟨"authorization_pending", "pending"⟩, none, none⟩, 20⟩] =
      some ((("" : String),
        some (GoError.wrap "error decoding token response" GoError.jsonDecode)), 1) ∧
    (10 : Int) < 100 ∧
    GoError.wrap "error decoding token response" GoError.jsonDecode ≠ timeoutError := by
  refine ⟨fun _ => ⟨rfl, rfl⟩, ?_⟩
  decide

/-- Claim C4: after any prefix of inconclusive, unexpired attempts, an
attempt whose response decodes to a non-empty access token makes the
poller return exactly that token with no error, and stop: the count of
requests is the position of the successful attempt, whatever the rest of
the schedule holds. -/
theorem C4_success_returns_token_and_stops (v : DeviceVerification)
    (pre post : List PollStep) (st : PollStep) (res : HttpResponse)
    (tokenRes : OAuthTokenResponse)
    (hpre : ∀ s ∈ pre, requestToken s.net = ("", none) ∧ s.now ≤ v.expiresAt)
    (hnet : st.net = Except.ok res) (hcls : checkErrorResponse res = none)
    (hdec : res.tokenBody = some tokenRes) (htok : tokenRes.accessToken ≠ "") :
    GetAccessTokenForDevice v (pre ++ st :: post) =
      some ((tokenRes.accessToken, none), pre.length + 1) := by
  have hp : requestToken st.net = (tokenRes.accessToken, none) := by
    simp [requestToken, hnet, hcls, hdec]
  have hit : loopIter ⟨v, "", none⟩ st = (⟨v, tokenRes.accessToken, none⟩, false) :=
    loopIter_stop hp (by simp [htok])
  have h1 : runLoop ⟨v, "", none⟩ (st :: post) =
      some (⟨v, tokenRes.accessToken, none⟩, 1) := runLoop_cons_stop hit
  have h2 := runLoop_skip_pending v pre (st :: post) hpre
  rw [h1] at h2
  simp [GetAccessTokenForDevice, h2, Nat.add_comm]

/-- Witness for C4: one pending attempt, then a response carrying token T1;
the poller returns T1 after exactly two requests, ignoring the trailing
schedule entry. -/
theorem C4_success_returns_token_and_stops_witness :
    GetAccessTokenForDevice ⟨"D", "U", "u", "uc", 5 * second, 100⟩
        [⟨Except.ok ⟨200, none, some ⟨"", "", "", 0⟩, none⟩, 10⟩,
         ⟨Except.ok ⟨200, none, some ⟨"T1", "R1", "I1", 3600⟩, none⟩, 20⟩,
         ⟨Except.ok ⟨200, none, some ⟨"T2", "", "", 0⟩, none⟩, 30⟩] =
      some ((("T1" : String), none), 2) :=
  C4_success_returns_token_and_stops ⟨"D", "U", "u", "uc", 5 * second, 100⟩
    [⟨Except.ok ⟨200, none, some ⟨"", "", "", 0⟩, none⟩, 10⟩]
    [⟨Except.ok ⟨200, none, some ⟨"T2", "", "", 0⟩, none⟩, 30⟩]
    ⟨Except.ok ⟨200, none, some ⟨"T1", "R1", "I1", 3600⟩, none⟩, 20⟩
    ⟨200, none, some ⟨"T1", "R1", "I1", 3600⟩, none⟩ ⟨"T1", "R1", "I1", 3600⟩
    (by decide) rfl (by decide) rfl (by decide)

/-- Claim C5: after any prefix of inconclusive, unexpired attempts, an
attempt whose response carries an error code other than
authorization_pending and slow_down makes the poller return that
AuthError at once — with no constraint relating the clock to expires_at —
and issue no further requests. -/
theorem C5_terminal_error_stops_polling (v : DeviceVerification)
    (pre post : List PollStep) (st : PollStep) (res : HttpResponse)
    (er : ErrorResponse)
    (hpre : ∀ s ∈ pre, requestToken s.net = ("", none) ∧ s.now ≤ v.expiresAt)
    (hnet : st.net = Except.ok res) (hstatus : 400 ≤ res.statusCode)
    (hdec : res.errorBody = some er)
    (h1 : er.errorCode ≠ "authorization_pending") (h2 : er.errorCode ≠ "slow_down") :
    GetAccessTokenForDevice v (pre ++ st :: post) =
      some ((("" : String), some (GoError.auth er)), pre.length + 1) := by
  have hcls : checkErrorResponse res = some (GoError.auth er) := by
    simp [checkErrorResponse, hstatus, hdec, h1, h2]
  have hp : requestToken st.net = ("", some (GoError.auth er)) := by
    simp [requestToken, hnet, hcls]
  have hit : loopIter ⟨v, "", none⟩ st = (⟨v, "", some (GoError.auth er)⟩, false) :=
    loopIter_stop hp (by simp)
  have hrun : runLoop ⟨v, "", none⟩ (st :: post) =
      some (⟨v, "", some (GoError.auth er)⟩, 1) := runLoop_cons_stop hit
  have hall := runLoop_skip_pending v pre (st :: post) hpre
  rw [hrun] at hall
  simp [GetAccessTokenForDevice, hall, Nat.add_comm]

/-- Witness for C5: one pending attempt, then access_denied well before
expiry; the poller fails with that AuthError after exactly two requests,
ignoring the trailing schedule entry. -/
theorem C5_terminal_error_stops_polling_witness :
    GetAccessTokenForDevice ⟨"D", "U", "u", "uc", 5 * second, 1000⟩
        [⟨Except.ok ⟨200, none, some ⟨"", "", "", 0⟩, none⟩, 10⟩,
         ⟨Except.ok ⟨403, some ⟨"access_denied", "user denied the request"⟩, none, none⟩, 20⟩,
         ⟨Except.ok ⟨200, none, some ⟨"T2", "", "", 0⟩, none⟩, 30⟩] =
      some ((("" : String), some (GoError.auth ⟨"access_denied", "user denied the request"⟩)), 2) :=
  C5_terminal_error_stops_polling ⟨"D", "U", "u", "uc", 5 * second, 1000⟩
    [⟨Except.ok ⟨200, none, some ⟨"", "", "", 0⟩, none⟩, 10⟩]
    [⟨Except.ok ⟨200, none, some ⟨"T2", "", "", 0⟩, none⟩, 30⟩]
    ⟨Except.ok ⟨403, some ⟨"access_denied", "user denied the request"⟩, none, none⟩, 20⟩
    ⟨403, some ⟨"access_denied", "user denied the request"⟩, none, none⟩
    ⟨"access_denied", "user denied the request"⟩
    (by decide) rfl (by decide) rfl (by decide) (by decide)

/-- Claim C2 counterexample: a 400 response whose error body decodes to
authorization_pending is not a hard failure carrying that AuthError —
checkErrorResponse reports no error for that code even inside
VerifyDevice, which then proceeds to decode the body as a device-code
response (failing here with a wrapped decode error instead). -/
theorem C2_pending_not_hard_failure :
    checkErrorResponse ⟨400, some ⟨"authorization_pending", "pending"⟩, none, none⟩ = none ∧
    VerifyDevice 0 (Except.ok ⟨400, some ⟨"authorization_pending", "pending"⟩, none, none⟩) =
      Except.error (GoError.wrap "error decoding device code response" GoError.jsonDecode) ∧
    VerifyDevice 0 (Except.ok ⟨400, some ⟨"authorization_pending", "pending"⟩, none, none⟩) ≠
      Except.error (GoError.auth ⟨"authorization_pending", "pending"⟩) := by
  decide

/-- Claim C2 (amended): on a non-success status, VerifyDevice fails with
the decoded AuthError for every error code other than
authorization_pending and slow_down; for those two codes the shared
classifier reports no error and VerifyDevice proceeds to decode the body
as a device-code response; a body that does not decode as an
ErrorResponse yields a wrapped decode error. -/
theorem C2_verify_device_error_amended (now : Int) (res : HttpResponse)
    (h : 400 ≤ res.statusCode) :
    (∀ er, res.errorBody = some er →
      (er.errorCode ≠ "authorization_pending" → er.errorCode ≠ "slow_down" →
        VerifyDevice now (Except.ok res) = Except.error (GoError.auth er)) ∧
      ((er.errorCode = "authorization_pending" ∨ er.errorCode = "slow_down") →
        VerifyDevice now (Except.ok res) = verifyDecode now res)) ∧
    (res.errorBody = none →
      VerifyDevice now (Except.ok res) =
        Except.error (GoError.wrap "error decoding token response" GoError.jsonDecode)) := by
  constructor
  · intro er her
    constructor
    · intro h1 h2
      simp [VerifyDevice, checkErrorResponse, h, her, h1, h2]
    · intro hc
      simp [VerifyDevice, checkErrorResponse, h, her, hc]
  · intro hnone
    simp [VerifyDevice, checkErrorResponse, h, hnone]

/-- Witness for the amended C2: a 403 access_denied response makes
VerifyDevice fail with exactly the decoded AuthError. -/
theorem C2_verify_device_error_amended_witness :
    VerifyDevice 0 (Except.ok ⟨403, some ⟨"access_denied", "denied"⟩, none, none⟩) =
      Except.error (GoError.auth ⟨"access_denied", "denied"⟩) :=
  ((C2_verify_device_error_amended 0 ⟨403, some ⟨"access_denied", "denied"⟩, none, none⟩
      (by decide)).1 ⟨"access_denied", "denied"⟩ rfl).1 (by decide) (by decide)

/-- Claim C3: for a response with status at least 400, the classifier
reports no error on the codes authorization_pending and slow_down, turns
any other decoded code into the AuthError whose message is the server
description, and turns a failure to decode the error body into a wrapped
decode error that is not an AuthError. -/
theorem C3_error_classifier (res : HttpResponse) (h : 400 ≤ res.statusCode) :
    (∀ er, res.errorBody = some er →
      ((er.errorCode = "authorization_pending" ∨ er.errorCode = "slow_down") →
        checkErrorResponse res = none) ∧
      (er.errorCode ≠ "authorization_pending" → er.errorCode ≠ "slow_down" →
        checkErrorResponse res = some (GoError.auth er) ∧
        (GoError.auth er).message = er.description)) ∧
    (res.errorBody = none →
      checkErrorResponse res =
        some (GoError.wrap "error decoding token response" GoError.jsonDecode) ∧
      ∀ er, checkErrorResponse res ≠ some (GoError.auth er)) := by
  constructor
  · intro er her
    constructor
    · intro hc
      simp [checkErrorResponse, h, her, hc]
    · intro h1 h2
      simp [checkErrorResponse, h, her, h1, h2, GoError.message]
  · intro hnone
    simp [checkErrorResponse, h, hnone]

/-- Witness for C3: a 403 body with an unrecognized code surfaces as the
AuthError with the server description as message, while a 403
slow_down body is classified as no error. -/
theorem C3_error_classifier_witness :
    checkErrorResponse ⟨403, some ⟨"expired_token", "the device code has expired"⟩, none, none⟩ =
      some (GoError.auth ⟨"expired_token", "the device code has expired"⟩) ∧
    checkErrorResponse ⟨403, some ⟨"slow_down", "polling too fast"⟩, none, none⟩ = none :=
  ⟨(((C3_error_classifier ⟨403, some ⟨"expired_token", "the device code has expired"⟩, none, none⟩
        (by decide)).1 ⟨"expired_token", "the device code has expired"⟩ rfl).2
        (by decide) (by decide)).1,
   ((C3_error_classifier ⟨403, some ⟨"slow_down", "polling too fast"⟩, none, none⟩
        (by decide)).1 ⟨"slow_down", "polling too fast"⟩ rfl).1 (by decide)⟩

lemma wrap64_eq_self {x : Int} (h1 : -(2 ^ 63) ≤ x) (h2 : x < 2 ^ 63) : wrap64 x = x := by
  unfold wrap64
  have h3 : (0 : Int) ≤ x + 2 ^ 63 := by linarith
  have h64 : (2 : Int) ^ 64 = 2 ^ 63 + 2 ^ 63 := by norm_num
  have h4 : x + 2 ^ 63 < 2 ^ 64 := by rw [h64]; linarith
  rw [Int.emod_eq_of_lt h3 h4]
  ring

/-- Claim C7: a successfully decoded device-code response yields a
DeviceVerification whose check interval is the interval field in seconds
and whose expiry is the current time plus expires_in seconds, both
computed at this call (the in-range hypotheses keep the int64 duration
arithmetic exact). -/
theorem C7_verify_device_derives_interval_and_expiry (now : Int) (res : HttpResponse)
    (deviceCodeRes : DeviceCodeResponse)
    (hcls : checkErrorResponse res = none) (hdec : res.deviceBody = some deviceCodeRes)
    (hi1 : -(2 ^ 63) ≤ deviceCodeRes.pollingInterval * second)
    (hi2 : deviceCodeRes.pollingInterval * second < 2 ^ 63)
    (he1 : -(2 ^ 63) ≤ deviceCodeRes.expiresIn * second)
    (he2 : deviceCodeRes.expiresIn * second < 2 ^ 63) :
    VerifyDevice now (Except.ok res) =
      Except.ok { deviceCode := deviceCodeRes.deviceCode
                  userCode := deviceCodeRes.userCode
                  verificationURL := deviceCodeRes.verificationURI
                  verificationCompleteURL := deviceCodeRes.verificationCompleteURI
                  checkInterval := deviceCodeRes.pollingInterval * second
                  expiresAt := now + deviceCodeRes.expiresIn * second } := by
  simp [VerifyDevice, hcls, verifyDecode, hdec, wrap64_eq_self hi1 hi2,
    wrap64_eq_self he1 he2]

/-- Witness for C7: the spec scenario — expires_in 600 and interval 5
yield a check interval of 5 seconds and an expiry of now plus 600
seconds. -/
theorem C7_verify_device_derives_interval_and_expiry_witness :
    VerifyDevice 1000 (Except.ok ⟨200, none, none,
        some ⟨"D1", "U1", "https://x/d", "https://x/d?c=U1", 600, 5⟩⟩) =
      Except.ok ⟨"D1", "U1", "https://x/d", "https://x/d?c=U1",
        5 * second, 1000 + 600 * second⟩ :=
  C7_verify_device_derives_interval_and_expiry 1000
    ⟨200, none, none, some ⟨"D1", "U1", "https://x/d", "https://x/d?c=U1", 600, 5⟩⟩
    ⟨"D1", "U1", "https://x/d", "https://x/d?c=U1", 600, 5⟩
    (by decide) rfl (by decide) (by decide) (by decide) (by decide)

lemma runLoop_preserves_v (s : LoopState) (steps : List PollStep) (f : LoopState) (n : Nat)
    (h : runLoop s steps = some (f, n)) : f.v = s.v := by
  induction steps generalizing s f n with
  | nil => simp [runLoop] at h
  | cons st rest ih =>
    have hv : ((loopIter s st).1).v = s.v := by
      unfold loopIter
      dsimp only
      split
      · split <;> rfl
      · rfl
    unfold runLoop at h
    rcases hit : loopIter s st with ⟨s1, b⟩
    rw [hit] at h hv
    simp only at hv
    cases b with
    | false =>
      simp at h
      rw [← h.1, ← hv]
    | true =>
      simp at h
      rcases h with ⟨f1, n1, hrun, hf, hn⟩
      rw [← hf, ih s1 f1 n1 hrun]
      exact hv

/-- Claim C8: polling never changes any field of the DeviceVerification —
a loop iteration keeps the verification component of the state intact,
and whatever final state a run of GetAccessTokenForDevice reaches still
carries exactly the DeviceVerification it started from, so expires_at in
particular is never recomputed or extended. -/
theorem C8_polling_never_mutates_verification (v : DeviceVerification) :
    (∀ (s : LoopState) (st : PollStep), ((loopIter s st).1).v = s.v) ∧
    (∀ (steps : List PollStep) (f : LoopState) (n : Nat),
      runLoop { v := v, accessToken := "", err := none } steps = some (f, n) → f.v = v) := by
  constructor
  · intro s st
    unfold loopIter
    dsimp only
    split
    · split <;> rfl
    · rfl
  · intro steps f n h
    exact runLoop_preserves_v _ steps f n h

/-- Witness for C8: a run that times out on its second attempt ends in a
state still carrying the original DeviceVerification unchanged. -/
theorem C8_polling_never_mutates_verification_witness :
    (((loopIter ⟨⟨"D", "U", "u", "uc", 5 * second, 100⟩, "", none⟩
        ⟨Except.ok ⟨200, none, some ⟨"", "", "", 0⟩, none⟩, 10⟩).1).v =
      (⟨"D", "U", "u", "uc", 5 * second, 100⟩ : DeviceVerification)) ∧
    (⟨⟨"D", "U", "u", "uc", 5 * second, 100⟩, "", some timeoutError⟩ : LoopState).v =
      (⟨"D", "U", "u", "uc", 5 * second, 100⟩ : DeviceVerification) :=
  ⟨(C8_polling_never_mutates_verification ⟨"D", "U", "u", "uc", 5 * second, 100⟩).1
      ⟨⟨"D", "U", "u", "uc", 5 * second, 100⟩, "", none⟩
      ⟨Except.ok ⟨200, none, some ⟨"", "", "", 0⟩, none⟩, 10⟩,
   (C8_polling_never_mutates_verification ⟨"D", "U", "u", "uc", 5 * second, 100⟩).2
      [⟨Except.ok ⟨200, none, some ⟨"", "", "", 0⟩, none⟩, 200⟩]
      ⟨⟨"D", "U", "u", "uc", 5 * second, 100⟩, "", some timeoutError⟩ 1 (by decide)⟩

/-- Every request event in the trace L sits right after a sleep of
duration c, so in particular no request opens the trace. -/
def Preceded (c : Int) (L : List PollEvent) : Prop :=
  ∀ i : Nat, (h : i < L.length) → L.get ⟨i, h⟩ = PollEvent.request →
    ∃ j : Nat, ∃ hj : j < L.length,
      i = j + 1 ∧ L.get ⟨j, hj⟩ = PollEvent.sleep c

lemma preceded_nil {c : Int} : Preceded c [] := by
  intro i h
  simp at h

lemma preceded_cons {c : Int} {t : List PollEvent} (ht : Preceded c t) :
    Preceded c (PollEvent.sleep c :: PollEvent.request :: t) := by
  intro i h hi
  match i with
  | 0 => exact absurd hi (by simp)
  | 1 => exact ⟨0, by simp, rfl, by simp⟩
  | (k + 2) =>
    have hk : k < t.length := by
      simp only [List.length_cons] at h
      omega
    have hik : t.get ⟨k, hk⟩ = PollEvent.request := hi
    obtain ⟨j, hj, hij, hs⟩ := ht k hk hik
    have hj2 : j + 2 < (PollEvent.sleep c :: PollEvent.request :: t).length := by
      simp only [List.length_cons]
      omega
    exact ⟨j + 2, hj2, by omega, hs⟩

/-- Claim C6: in the event trace of the polling loop, every token request
is immediately preceded by a suspension of length checkInterval; since a
preceding index must exist, no request is ever the first event — there
is no immediate first poll. -/
theorem C6_sleep_precedes_every_request (v : DeviceVerification) (steps : List PollStep) :
    Preceded v.checkInterval (pollEvents v steps) := by
  induction steps with
  | nil => exact preceded_nil
  | cons st rest ih =>
    have ht : Preceded v.checkInterval
        (if (requestToken st.net).1 = "" ∧ (requestToken st.net).2 = none ∧
            ¬ v.expiresAt < st.now
         then pollEvents v rest else []) := by
      by_cases hc : (requestToken st.net).1 = "" ∧ (requestToken st.net).2 = none ∧
          ¬ v.expiresAt < st.now
      · rw [if_pos hc]
        exact ih
      · rw [if_neg hc]
        exact preceded_nil
    exact preceded_cons ht

/-- Witness for C6: on a one-attempt trace the request at index 1 is
preceded at index 0 by the sleep of length checkInterval. -/
theorem C6_sleep_precedes_every_request_witness :
    ∃ j : Nat, ∃ hj : j < (pollEvents ⟨"D", "U", "u", "uc", 5 * second, 100⟩
        [⟨Except.ok ⟨200, none, some ⟨"T1", "", "", 0⟩, none⟩, 10⟩]).length,
      1 = j + 1 ∧
      (pollEvents ⟨"D", "U", "u", "uc", 5 * second, 100⟩
        [⟨Except.ok ⟨200, none, some ⟨"T1", "", "", 0⟩, none⟩, 10⟩]).get ⟨j, hj⟩ =
        PollEvent.sleep (5 * second) :=
  C6_sleep_precedes_every_request ⟨"D", "U", "u", "uc", 5 * second, 100⟩
    [⟨Except.ok ⟨200, none, some ⟨"T1", "", "", 0⟩, none⟩, 10⟩] 1 (by decide) (by decide)

lemma runLoop_pos (s : LoopState) (steps : List PollStep) (f : LoopState) (n : Nat)
    (h : runLoop s steps = some (f, n)) : 1 ≤ n := by
  cases steps with
  | nil => simp [runLoop] at h
  | cons st rest =>
    unfold runLoop at h
    rcases hit : loopIter s st with ⟨s1, b⟩
    rw [hit] at h
    cases b with
    | false =>
      simp at h
      omega
    | true =>
      simp at h
      rcases h with ⟨f1, n1, _, _, hn⟩
      omega

/-- Claim C10: the poller performs at least one suspension and one token
request before any outcome: every decided run uses at least one attempt,
every nonempty trace opens with the sleep and the request, and an
already-expired deadline is still only consulted after the first attempt
— a pending first attempt past expiry yields the timeout after exactly
one request. -/
theorem C10_attempt_precedes_expiry_check (v : DeviceVerification) :
    (∀ (steps : List PollStep) (r : String × Option GoError) (n : Nat),
      GetAccessTokenForDevice v steps = some (r, n) → 1 ≤ n) ∧
    (∀ (st : PollStep) (rest : List PollStep),
      List.take 2 (pollEvents v (st :: rest)) =
        [PollEvent.sleep v.checkInterval, PollEvent.request]) ∧
    (∀ (st : PollStep) (rest : List PollStep),
      requestToken st.net = ("", none) → v.expiresAt < st.now →
      GetAccessTokenForDevice v (st :: rest) =
        some ((("" : String), some timeoutError), 1)) := by
  refine ⟨?_, ?_, ?_⟩
  · intro steps r n h
    unfold GetAccessTokenForDevice at h
    rcases hrun : runLoop ⟨v, "", none⟩ steps with _ | ⟨f, m⟩
    · rw [hrun] at h
      simp at h
    · rw [hrun] at h
      simp at h
      rcases h with ⟨_, hm⟩
      have := runLoop_pos _ steps f m hrun
      omega
  · intro st rest
    rfl
  · intro st rest hp hgt
    have hit : loopIter ⟨v, "", none⟩ st = (⟨v, "", some timeoutError⟩, false) :=
      loopIter_timeout hp hgt
    have h1 : runLoop ⟨v, "", none⟩ (st :: rest) =
        some (⟨v, "", some timeoutError⟩, 1) := runLoop_cons_stop hit
    simp [GetAccessTokenForDevice, h1]

/-- Witness for C10: with expires_at = 100 already passed (the clock reads
200), the poller still sleeps, issues one request, and only then returns
the timeout. -/
theorem C10_attempt_precedes_expiry_check_witness :
    GetAccessTokenForDevice ⟨"D", "U", "u", "uc", 5 * second, 100⟩
        [⟨Except.ok ⟨200, none, some ⟨"", "", "", 0⟩, none⟩, 200⟩] =
      some ((("" : String), some timeoutError), 1) :=
  (C10_attempt_precedes_expiry_check ⟨"D", "U", "u", "uc", 5 * second, 100⟩).2.2
    ⟨Except.ok ⟨200, none, some ⟨"", "", "", 0⟩, none⟩, 200⟩
    [] (by decide) (by decide)

/-- Claim C9 fails on the code: the wait before each poll is a plain
sleep that does not observe the caller context, so a cancellation
delivered during the wait does not abort it. Concretely, with a 10 s
check interval and cancellation at 3 s into the first wait, the loop
returns only at the 10 s mark — when the network call finally observes
the cancelled context — not promptly at 3 s; only the in-flight network
call is cancellable. -/
theorem C9_wait_not_cancellable :
    timedLoop ⟨"D", "U", "u", "uc", 10 * second, 1000 * second⟩ (some (3 * second)) 0
        [⟨2 * second, Except.ok ⟨200, none, some ⟨"T1", "", "", 0⟩, none⟩⟩] =
      some (10 * second,
        ("", some (GoError.wrap "error performing http request" GoError.ctxCanceled))) ∧
    goSleep 0 (10 * second) = 10 * second ∧
    (0 : Int) < 3 * second ∧ (3 : Int) * second < 10 * second := by
  decide

end PscaleAuth
